import Mathlib

/-!
# WritifyApp backend — shallow embedding and verification

This file embeds the core of `src/backend/server.js` (the assignment-request
lifecycle manager, the rating aggregator, and the expiration sweeper) as
executable Lean definitions, and proves or refutes the specification claims
about them.

Conventions of the embedding:
* the relational store is a `DB` structure of lists of rows;
* SQL `SELECT ... WHERE` is `List.filter` / `List.find?` (a query's `rows[0]`
  is `find?`), `UPDATE` is `List.map` guarded by the `WHERE` predicate,
  `INSERT` appends, `DELETE` is `List.filter` with the negated predicate;
* timestamps are integers (milliseconds since epoch, like JS `Date`);
* numeric SQL/JS values are rationals (`ℚ`), money and page counts are `Int`;
* JavaScript `Math.round` on non-negative values is `⌊x + 1/2⌋`, and
  PostgreSQL `::numeric(3,2)` / JS `toFixed` rounding on non-negative values
  round half away from zero at the given scale.

The two concatenated versions of `server.js` found in the repository agree on
every route modelled here except where noted (`listOpen` follows the first
version, which filters by `created_at`; `deleteRequestV2` models the second
version's `pool.query` proxy, which the first version does not have).
-/

/-- Status column of `assignment_requests` (DB constraint listed in the
`accept` route's comment: open, assigned, completed, cancelled). -/
inductive ReqStatus
  | open
  | assigned
  | completed
  | cancelled
deriving DecidableEq, Repr

/-- A row of the `users` table (the columns the modelled routes touch). -/
structure UserRow where
  id : Nat
  name : String
  writer_status : String
  rating : ℚ
  total_ratings : Nat
  profile_picture : String
  whatsapp_number : String
deriving DecidableEq, Repr

/-- A row of the `assignment_requests` table. -/
structure RequestRow where
  id : Nat
  client_id : Nat
  course_name : String
  course_code : String
  assignment_type : String
  num_pages : Int
  deadline : Int
  estimated_cost : Int
  status : ReqStatus
  created_at : Int
deriving DecidableEq, Repr

/-- A row of the `assignments` table. -/
structure AssignmentRow where
  request_id : Nat
  writer_id : Nat
  client_id : Nat
  status : String
  created_at : Int
  completed_at : Option Int
deriving DecidableEq, Repr

/-- A row of the `ratings` table. -/
structure RatingRow where
  rater_id : Nat
  rated_id : Nat
  assignment_request_id : Nat
  score : ℚ
  comment : String
deriving DecidableEq, Repr

/-- The relational store. -/
structure DB where
  users : List UserRow
  requests : List RequestRow
  assignments : List AssignmentRow
  ratings : List RatingRow
deriving DecidableEq, Repr

/-- Constant `ASSIGNMENT_EXPIRATION_DAYS = 7`, converted to milliseconds the way the
JS code's `Date` arithmetic does. -/
def retentionMs : Int := 7 * 24 * 60 * 60 * 1000

/-- Status of a request by id, via the first matching row (SQL `rows[0]`). -/
def requestStatus (db : DB) (rid : Nat) : Option ReqStatus :=
  (db.requests.find? (fun r => r.id == rid)).map (fun r => r.status)

/-- Query `SELECT * FROM assignments WHERE request_id = rid` is nonempty. -/
def hasAssignmentFor (db : DB) (rid : Nat) : Bool :=
  db.assignments.any (fun a => a.request_id == rid)

/-! ## Expiration sweeper (first version, `cron.schedule` at lines 1947–1965)

`DELETE FROM assignment_requests WHERE status = 'open' AND created_at < $1`
with `$1 = now - 7 days`. -/

/-- A request row the sweeper deletes: still `open` and created strictly
before the cutoff `now - retentionMs`. -/
def isExpiredOpen (now : Int) (r : RequestRow) : Bool :=
  r.status == ReqStatus.open && r.created_at < now - retentionMs

/-- The cron sweep: delete expired open requests, touch nothing else. -/
def expireStale (db : DB) (now : Int) : DB :=
  { db with requests := db.requests.filter (fun r => !isExpiredOpen now r) }

/-! ## Open listing (first version, `GET /api/assignment-requests`,
lines 886–947)

`SELECT ... FROM assignment_requests ar JOIN users u ON u.id = ar.client_id
WHERE ar.status = 'open' AND ar.created_at > $1 ORDER BY ar.created_at DESC`
with `$1 = now - 7 days`, then a row-per-row transformation into the
client-snapshot shape sent to the frontend. -/

/-- The transformed record the listing endpoint returns for one joined row. -/
structure ListedEntry where
  id : Nat
  client_id : Nat
  client_name : String
  client_rating : ℚ
  client_total_ratings : Nat
  client_profile_picture : String
  course_name : String
  course_code : String
  assignment_type : String
  num_pages : Int
  deadline : Int
  estimated_cost : Int
  status : ReqStatus
  created_at : Int
deriving DecidableEq, Repr

/-- The transformation applied to one joined (request, client) row. -/
def mkEntry (r : RequestRow) (u : UserRow) : ListedEntry :=
  { id := r.id
    client_id := u.id
    client_name := u.name
    client_rating := u.rating
    client_total_ratings := u.total_ratings
    client_profile_picture := u.profile_picture
    course_name := r.course_name
    course_code := r.course_code
    assignment_type := r.assignment_type
    num_pages := r.num_pages
    deadline := r.deadline
    estimated_cost := r.estimated_cost
    status := r.status
    created_at := r.created_at }

/-- Ordering `ORDER BY created_at DESC`: newer (larger timestamp) entries first. -/
def entryGE (a b : ListedEntry) : Prop := b.created_at ≤ a.created_at

instance : DecidableRel entryGE := fun a b => by
  unfold entryGE; infer_instance

instance : IsTotal ListedEntry entryGE :=
  ⟨fun a b => le_total b.created_at a.created_at⟩

instance : IsTrans ListedEntry entryGE :=
  ⟨fun _ _ _ h1 h2 => le_trans h2 h1⟩

/-- A request row the open listing shows: `status = 'open' AND
created_at > now - 7 days`. -/
def isListable (now : Int) (r : RequestRow) : Bool :=
  r.status == ReqStatus.open && now - retentionMs < r.created_at

/-- Route `GET /api/assignment-requests` (first version): filter, inner-join with
`users` on `client_id`, order newest first, transform. -/
def listOpen (db : DB) (now : Int) : List ListedEntry :=
  let joined :=
    (db.requests.filter (isListable now)).flatMap
      (fun r => (db.users.filter (fun u => u.id == r.client_id)).map (mkEntry r))
  joined.insertionSort entryGE

/-! ## Creation (first version, `POST /api/assignment-requests`,
lines 817–884) -/

/-- The request body of the creation route. JS falsy checks on the numeric
fields make a literal `0` behave as "missing". -/
structure CreateInput where
  course_name : String
  course_code : String
  assignment_type : String
  num_pages : Int
  deadline : Int
  estimated_cost : ℚ
deriving DecidableEq, Repr

/-- Outcome of the creation route: HTTP 400 with a message, or 201 with the
inserted row. -/
inductive CreateResult
  | badRequest (msg : String)
  | created (row : RequestRow)
deriving DecidableEq, Repr

/-- JavaScript `Math.round` on the non-negative values that reach it:
round half toward positive infinity. -/
def jsRound (q : ℚ) : Int := ⌊q + 1 / 2⌋

/-- Route `POST /api/assignment-requests`: validate presence, numeric parse and
column lengths, round `estimated_cost` to the nearest multiple of 50, insert
an `'open'` row. `newId` stands for the serial key the database assigns;
`now` is the inserted `created_at`. -/
def createRequest (db : DB) (clientId : Nat) (inp : CreateInput)
    (newId : Nat) (now : Int) : DB × CreateResult :=
  if inp.course_name = "" ∨ inp.course_code = "" ∨ inp.assignment_type = "" ∨
      inp.num_pages = 0 ∨ inp.deadline = 0 ∨ inp.estimated_cost = 0 then
    (db, .badRequest "All fields are required")
  else if 255 < inp.course_name.length then
    (db, .badRequest "Course name must be less than 255 characters")
  else if 50 < inp.course_code.length then
    (db, .badRequest "Course code must be less than 50 characters")
  else if 100 < inp.assignment_type.length then
    (db, .badRequest "Assignment type must be less than 100 characters")
  else
    let row : RequestRow :=
      { id := newId
        client_id := clientId
        course_name := inp.course_name
        course_code := inp.course_code
        assignment_type := inp.assignment_type
        num_pages := inp.num_pages
        deadline := inp.deadline
        estimated_cost := 50 * jsRound (inp.estimated_cost / 50)
        status := .open
        created_at := now }
    ({ db with requests := db.requests ++ [row] }, .created row)

/-! ## Acceptance (first version, `POST /api/assignment-requests/:id/accept`,
lines 949–1007)

The route issues, in order: a `SELECT writer_status`, a
`SELECT * ... WHERE id = $1 AND status = 'open'`, a `SELECT id, name,
whatsapp_number` for the client, then an `INSERT INTO assignments` and an
`UPDATE assignment_requests SET status = 'assigned'`.  There is no
`BEGIN`/`COMMIT` around any of it: each statement is its own round trip. -/

/-- The writer-eligibility check: the writer row exists and its
`writer_status` is `'active'` or `'busy'`. -/
def writerEligible (db : DB) (wid : Nat) : Bool :=
  match db.users.find? (fun u => u.id == wid) with
  | none => false
  | some w => w.writer_status == "active" || w.writer_status == "busy"

/-- All three validation reads of the accept route succeed: eligible writer,
request present with `status = 'open'`, owning client present. -/
def acceptChecks (db : DB) (rid wid : Nat) : Bool :=
  writerEligible db wid &&
    match db.requests.find? (fun r => r.id == rid && r.status == ReqStatus.open) with
    | none => false
    | some r => (db.users.find? (fun u => u.id == r.client_id)).isSome

/-- The `client_id` of the request row the route fetched (`rows[0]`). -/
def clientIdOf (db : DB) (rid : Nat) : Nat :=
  ((db.requests.find? (fun r => r.id == rid)).map (fun r => r.client_id)).getD 0

/-- Statement `INSERT INTO assignments (request_id, writer_id, client_id, status,
created_at) VALUES ($1, $2, $3, 'in_progress', NOW())`. -/
def insertAssignment (db : DB) (rid wid cid : Nat) (now : Int) : DB :=
  { db with assignments :=
      db.assignments ++ [⟨rid, wid, cid, "in_progress", now, none⟩] }

/-- Statement `UPDATE assignment_requests SET status = 'assigned' WHERE id = $1`. -/
def setAssigned (db : DB) (rid : Nat) : DB :=
  { db with requests :=
      db.requests.map (fun r => if r.id == rid then { r with status := .assigned } else r) }

/-- Outcome of the accept route. -/
inductive AcceptResult
  | writerNotFound
  | writerInactive
  | notFoundOrAccepted
  | clientNotFound
  | success (client_id : Nat) (client_name client_whatsapp : String)
deriving DecidableEq, Repr

/-- The accept route run to completion without interruption. -/
def accept (db : DB) (rid wid : Nat) (now : Int) : DB × AcceptResult :=
  match db.users.find? (fun u => u.id == wid) with
  | none => (db, .writerNotFound)
  | some w =>
    if !(w.writer_status == "active" || w.writer_status == "busy") then
      (db, .writerInactive)
    else
      match db.requests.find? (fun r => r.id == rid && r.status == ReqStatus.open) with
      | none => (db, .notFoundOrAccepted)
      | some r =>
        match db.users.find? (fun u => u.id == r.client_id) with
        | none => (db, .clientNotFound)
        | some c =>
          (setAssigned (insertAssignment db rid wid c.id now) rid,
           .success c.id c.name c.whatsapp_number)

/-- The state after the accept route (checks already passed) has executed the
first `k` of its two mutation statements.  `k = 1` is the state visible if the
process crashes, or another request interleaves, between the `INSERT` and the
`UPDATE`; nothing rolls back because no transaction was opened. -/
def acceptAfterSteps (db : DB) (rid wid : Nat) (now : Int) : Nat → DB
  | 0 => db
  | 1 => insertAssignment db rid wid (clientIdOf db rid) now
  | _ => setAssigned (insertAssignment db rid wid (clientIdOf db rid) now) rid

/-- Local state of one concurrently running accept handler.  `pc = 0`: about
to run its validation reads; `pc = 1`: about to run the `INSERT`; `pc = 2`:
about to run the `UPDATE`; `pc = 3`: finished, with `ok` recording whether it
will send the success JSON (`true`) or an error response (`false`). -/
structure AcceptThread where
  writerId : Nat
  pc : Nat
  ok : Bool
deriving DecidableEq, Repr

/-- One database round trip of a running accept handler.  The validation
`SELECT`s perform no writes, so they are grouped into the single read step
`pc = 0`; the two write statements are separate steps, exactly as the route
issues them (no transaction isolates them). -/
def acceptStep (db : DB) (t : AcceptThread) (rid : Nat) (now : Int) :
    DB × AcceptThread :=
  match t.pc with
  | 0 =>
    if acceptChecks db rid t.writerId then (db, { t with pc := 1, ok := true })
    else (db, { t with pc := 3, ok := false })
  | 1 => (insertAssignment db rid t.writerId (clientIdOf db rid) now,
          { t with pc := 2 })
  | 2 => (setAssigned db rid, { t with pc := 3 })
  | _ => (db, t)

/-- Interleave two accept handlers for the same request under a schedule
(`false` runs thread A one step, `true` runs thread B one step). -/
def raceRun (db : DB) (tA tB : AcceptThread) (rid : Nat) (now : Int) :
    List Bool → DB × AcceptThread × AcceptThread
  | [] => (db, tA, tB)
  | b :: rest =>
    if b then
      let p := acceptStep db tB rid now
      raceRun p.1 tA p.2 rid now rest
    else
      let p := acceptStep db tA rid now
      raceRun p.1 p.2 tB rid now rest

/-- A finished handler that sends the success JSON. -/
def threadSucceeded (t : AcceptThread) : Bool := t.pc == 3 && t.ok

/-! ## Deletion (`DELETE /api/assignment-requests/:id`, first version lines
1119–1163; the second version repeats it verbatim at lines 2994–3039 behind
the `pool.query` proxy). -/

/-- HTTP outcome of the delete route: 404, 403 (not the owner), 403 (already
assigned), or 200 with 'Assignment request deleted successfully'. -/
inductive DeleteResult
  | notFound
  | notOwner
  | notOpen
  | success
deriving DecidableEq, Repr

/-- First-version delete route: fetch the row, check ownership, check it is
still open, then `DELETE FROM assignment_requests WHERE id = $1`. -/
def deleteRequest (db : DB) (rid actor : Nat) : DB × DeleteResult :=
  match db.requests.find? (fun r => r.id == rid) with
  | none => (db, .notFound)
  | some r =>
    if r.client_id ≠ actor then (db, .notOwner)
    else if r.status ≠ .open then (db, .notOpen)
    else ({ db with requests := db.requests.filter (fun q => !(q.id == rid)) },
          .success)

/-- Second-version delete route, including the `pool.query` proxy installed
at lines 2154–2174: while `isLogoutInProgress` is set, any statement whose
text contains 'DELETE FROM' is not executed and resolves with a mock empty
result, so the route's checks (plain `SELECT`s) run, the `DELETE` does
nothing, and the route still responds with the success message. -/
def deleteRequestV2 (db : DB) (logoutInProgress : Bool) (rid actor : Nat) :
    DB × DeleteResult :=
  match db.requests.find? (fun r => r.id == rid) with
  | none => (db, .notFound)
  | some r =>
    if r.client_id ≠ actor then (db, .notOwner)
    else if r.status ≠ .open then (db, .notOpen)
    else if logoutInProgress then (db, .success)
    else ({ db with requests := db.requests.filter (fun q => !(q.id == rid)) },
          .success)

/-! ## Rating submission (first version, `POST /api/ratings`,
lines 1675–1790)

Inside one transaction the route: checks for an existing row keyed by
(`rater_id`, `assignment_request_id`) and updates it, else inserts; recomputes
the rated user's aggregate with
`AVG(rating)::numeric(3,2)` / `COUNT(*)` and writes both into `users`; and
marks the request's assignments completed. -/

/-- The request body of the rating route. -/
structure SubmitCall where
  rated : Nat
  reqId : Nat
  score : ℚ
  comment : String
deriving DecidableEq, Repr

/-- The `WHERE rater_id = $1 AND assignment_request_id = $2` key. -/
def keyMatch (rater : Nat) (reqId : Nat) (r : RatingRow) : Bool :=
  r.rater_id == rater && r.assignment_request_id == reqId

/-- Query `SELECT * FROM ratings WHERE rated_id = uid`. -/
def ratingsFor (db : DB) (uid : Nat) : List RatingRow :=
  db.ratings.filter (fun r => r.rated_id == uid)

/-- Aggregate `COUNT(*)` of the rated user's rating rows. -/
def countFor (db : DB) (uid : Nat) : Nat := (ratingsFor db uid).length

/-- Sum of the rated user's scores. -/
def sumFor (db : DB) (uid : Nat) : ℚ := ((ratingsFor db uid).map (fun r => r.score)).sum

/-- Aggregate `AVG(rating)` over the rated user's rows (exact arithmetic mean). -/
def meanFor (db : DB) (uid : Nat) : ℚ := sumFor db uid / countFor db uid

/-- PostgreSQL's cast `::numeric(3,2)` on the non-negative averages that occur
here: round half away from zero to two decimal places. -/
def round2 (q : ℚ) : ℚ := (⌊q * 100 + 1 / 2⌋ : ℤ) / 100

/-- JS `toFixed(1)` on the non-negative averages that occur here: round half
away from zero to one decimal place. -/
def round1 (q : ℚ) : ℚ := (⌊q * 10 + 1 / 2⌋ : ℤ) / 10

/-- The aggregate statement `WITH rating_stats AS (SELECT AVG(rating)::numeric(3,2),
COUNT(*) FROM ratings WHERE rated_id = $1 GROUP BY rated_id) UPDATE users SET
rating = .., total_ratings = .. FROM rating_stats WHERE users.id = rated_id`.
With zero rows the CTE is empty and the `UPDATE` touches nothing. -/
def recomputeAggregate (db : DB) (uid : Nat) : DB :=
  if countFor db uid = 0 then db
  else
    { db with users := db.users.map (fun u =>
        if u.id == uid then
          { u with rating := round2 (meanFor db uid),
                   total_ratings := countFor db uid }
        else u) }

/-- Statement `UPDATE assignments SET status='completed', completed_at=now FROM
assignment_requests ar WHERE ar.id = $1 AND assignments.request_id = ar.id`. -/
def completeAssignments (db : DB) (reqId : Nat) (now : Int) : DB :=
  if (db.requests.find? (fun r => r.id == reqId)).isSome then
    { db with assignments := db.assignments.map (fun a =>
        if a.request_id == reqId then
          { a with status := "completed", completed_at := some now }
        else a) }
  else db

/-- Outcome of the rating route. -/
inductive SubmitResult
  | badRequest
  | selfRating
  | ok
deriving DecidableEq, Repr

/-- The upsert step of the rating route on the `ratings` table: update the
row keyed by (`rater_id`, `assignment_request_id`) when one exists (leaving
its `rated_id` as it was), insert a fresh row otherwise. -/
def upsertRating (ratings : List RatingRow) (rater : Nat) (c : SubmitCall) :
    List RatingRow :=
  if ratings.any (keyMatch rater c.reqId) then
    ratings.map (fun r =>
      if keyMatch rater c.reqId r then
        { r with score := c.score, comment := c.comment }
      else r)
  else ratings ++ [⟨rater, c.rated, c.reqId, c.score, c.comment⟩]

/-- Route `POST /api/ratings` by user `rater`.  JS falsy checks make literal `0`
fields behave as missing; self-rating is rejected; then upsert, aggregate
recompute and assignment completion run inside one transaction. -/
def submitRating (db : DB) (rater : Nat) (c : SubmitCall) (now : Int) :
    DB × SubmitResult :=
  if c.rated = 0 ∨ c.score = 0 ∨ c.reqId = 0 then (db, .badRequest)
  else if c.rated = rater then (db, .selfRating)
  else
    let db1 := { db with ratings := upsertRating db.ratings rater c }
    let db2 := recomputeAggregate db1 c.rated
    (completeAssignments db2 c.reqId now, .ok)

/-- A full rating submission as an event: who called, with what body. -/
structure SubmitEvent where
  rater : Nat
  call : SubmitCall
  time : Int
deriving DecidableEq, Repr

/-- A sequence of rating submissions, applied in order. -/
def runSubmissions (db : DB) : List SubmitEvent → DB
  | [] => db
  | e :: es => runSubmissions (submitRating db e.rater e.call e.time).1 es

/-! ## Profile / my-ratings read endpoints (first version,
`GET /api/my-ratings` lines 1372–1445 and `GET /api/profile` lines 1447–1533).

Both recompute the caller's average and push values back into `users` —
`GET /api/profile` from a plain `SELECT rating FROM ratings WHERE rated_id =
$1`, always (rounded via `toFixed(1)`); `GET /api/my-ratings` from a `SELECT
... FROM ratings r JOIN users u ON r.rater_id = u.id JOIN assignment_requests
ar ON r.assignment_request_id = ar.id WHERE r.rated_id = $1`, so only over
rating rows whose rater and request both still exist, and only when the
stored pair is observably stale (rounded via `toFixed(2)`). -/

/-- Side effect of `GET /api/profile` on the store: when the user exists and
has at least one rating row, write `toFixed(1)` of the freshly computed
average and the row count into `users`. -/
def profileGet (db : DB) (uid : Nat) : DB :=
  match db.users.find? (fun u => u.id == uid) with
  | none => db
  | some _ =>
    if countFor db uid = 0 then db
    else
      { db with users := db.users.map (fun u =>
          if u.id == uid then
            { u with rating := round1 (meanFor db uid),
                     total_ratings := countFor db uid }
          else u) }

/-- The stored cached rating of a user, by id. -/
def userRating (db : DB) (uid : Nat) : Option ℚ :=
  (db.users.find? (fun u => u.id == uid)).map (fun u => u.rating)

/-- The stored cached rating count of a user, by id. -/
def userTotalRatings (db : DB) (uid : Nat) : Option Nat :=
  (db.users.find? (fun u => u.id == uid)).map (fun u => u.total_ratings)

/-- JavaScript `Math.abs`. -/
def jsAbs (q : ℚ) : ℚ := if q < 0 then -q else q

/-- Rows of the my-ratings `SELECT`: `FROM ratings r JOIN users u ON
r.rater_id = u.id JOIN assignment_requests ar ON r.assignment_request_id =
ar.id WHERE r.rated_id = uid`.  Inner-join multiplicity is kept: a rating row
appears once per matching (user, request) pair, so with unique keys exactly
the rows whose rater and request both exist survive. -/
def myRatingsRows (db : DB) (uid : Nat) : List RatingRow :=
  (db.ratings.filter (fun r => r.rated_id == uid)).flatMap (fun r =>
    (db.users.filter (fun u => u.id == r.rater_id)).flatMap (fun _ =>
      (db.requests.filter (fun a => a.id == r.assignment_request_id)).map
        (fun _ => r)))

/-- Length of the my-ratings result set, `ratings.length` in the route. -/
def myCountFor (db : DB) (uid : Nat) : Nat := (myRatingsRows db uid).length

/-- Score sum of the my-ratings result set (the route's `reduce`). -/
def mySumFor (db : DB) (uid : Nat) : ℚ :=
  ((myRatingsRows db uid).map (fun r => r.score)).sum

/-- The route's `calculatedAverageRating = sum / ratings.length`. -/
def myMeanFor (db : DB) (uid : Nat) : ℚ :=
  mySumFor db uid / myCountFor db uid

/-- The staleness test of `GET /api/my-ratings`: the average freshly computed
over the joined rows differs from the stored one by more than `0.01`, or the
joined-row count differs from the stored count (a missing user row reads as
stored `0`s, mirroring `rows[0]?.rating || 0`). -/
def myRatingsStale (db : DB) (uid : Nat) : Prop :=
  (1 : ℚ) / 100 < jsAbs (myMeanFor db uid - (userRating db uid).getD 0) ∨
    myCountFor db uid ≠ (userTotalRatings db uid).getD 0

instance (db : DB) (uid : Nat) : Decidable (myRatingsStale db uid) := by
  unfold myRatingsStale; infer_instance

/-- Side effect of `GET /api/my-ratings` on the store: when the joined
`SELECT` returns at least one row, compare the freshly computed average and
count with the stored pair, and only if they differ (average by more than
`0.01`, or count at all) write back `toFixed(2)` of the average and the
count. -/
def myRatingsGet (db : DB) (uid : Nat) : DB :=
  if myCountFor db uid = 0 then db
  else if myRatingsStale db uid then
    { db with users := db.users.map (fun u =>
        if u.id == uid then
          { u with rating := round2 (myMeanFor db uid),
                   total_ratings := myCountFor db uid }
        else u) }
  else db

/-! ## Frame lemmas about which tables each helper touches -/

theorem recomputeAggregate_ratings (db : DB) (uid : Nat) :
    (recomputeAggregate db uid).ratings = db.ratings := by
  unfold recomputeAggregate; split <;> rfl

theorem recomputeAggregate_requests (db : DB) (uid : Nat) :
    (recomputeAggregate db uid).requests = db.requests := by
  unfold recomputeAggregate; split <;> rfl

theorem recomputeAggregate_assignments (db : DB) (uid : Nat) :
    (recomputeAggregate db uid).assignments = db.assignments := by
  unfold recomputeAggregate; split <;> rfl

theorem completeAssignments_ratings (db : DB) (reqId : Nat) (now : Int) :
    (completeAssignments db reqId now).ratings = db.ratings := by
  unfold completeAssignments; split <;> rfl

theorem completeAssignments_users (db : DB) (reqId : Nat) (now : Int) :
    (completeAssignments db reqId now).users = db.users := by
  unfold completeAssignments; split <;> rfl

theorem completeAssignments_requests (db : DB) (reqId : Nat) (now : Int) :
    (completeAssignments db reqId now).requests = db.requests := by
  unfold completeAssignments; split <;> rfl

/-- C7: the expiration sweeper keeps exactly the rows that are not
(open ∧ expired), leaves every other table untouched, and is idempotent. -/
theorem expireStale_exact_and_idempotent (db : DB) (now : Int) :
    (∀ r : RequestRow, r ∈ (expireStale db now).requests ↔
        r ∈ db.requests ∧ ¬(r.status = .open ∧ r.created_at < now - retentionMs)) ∧
    (expireStale db now).users = db.users ∧
    (expireStale db now).assignments = db.assignments ∧
    (expireStale db now).ratings = db.ratings ∧
    expireStale (expireStale db now) now = expireStale db now := by
  refine ⟨fun r => ?_, rfl, rfl, rfl, ?_⟩
  · simp only [expireStale, List.mem_filter, isExpiredOpen, Bool.not_eq_true',
      Bool.and_eq_false_iff, beq_eq_false_iff_ne, ne_eq, decide_eq_false_iff_not,
      not_lt, not_and]
    constructor
    · rintro ⟨hm, h⟩
      exact ⟨hm, fun hs => h.elim (fun h' => absurd hs h') (fun h' => h')⟩
    · rintro ⟨hm, h⟩
      refine ⟨hm, ?_⟩
      by_cases hs : r.status = ReqStatus.open
      · exact Or.inr (h hs)
      · exact Or.inl hs
  · simp [expireStale, List.filter_filter]

/-! ## C4: the open listing -/

/-- Membership in the open listing: exactly the transformed join rows of an
open, unexpired request with its existing client. -/
theorem mem_listOpen {db : DB} {now : Int} {e : ListedEntry} :
    e ∈ listOpen db now ↔
      ∃ r ∈ db.requests, ∃ u ∈ db.users, u.id = r.client_id ∧
        r.status = .open ∧ now - retentionMs < r.created_at ∧ e = mkEntry r u := by
  unfold listOpen
  rw [List.mem_insertionSort]
  simp only [List.mem_flatMap, List.mem_filter, List.mem_map, isListable,
    Bool.and_eq_true, beq_iff_eq]
  constructor
  · rintro ⟨r, ⟨hr, hst, hwin⟩, u, ⟨hu, huid⟩, he⟩
    exact ⟨r, hr, u, hu, huid, hst, by simpa using hwin, he.symm⟩
  · rintro ⟨r, hr, u, hu, huid, hst, hwin, he⟩
    exact ⟨r, ⟨hr, hst, by simpa using hwin⟩, u, ⟨hu, huid⟩, he.symm⟩

/-- C4: `GET /api/assignment-requests` (first version) returns exactly the
open requests created within the last 7 days, each joined with the owning
client's snapshot (name, rating, total_ratings, picture), ordered most
recently created first. -/
theorem listOpen_exact_and_ordered (db : DB) (now : Int) :
    (∀ e : ListedEntry, e ∈ listOpen db now ↔
        ∃ r ∈ db.requests, ∃ u ∈ db.users, u.id = r.client_id ∧
          r.status = .open ∧ now - retentionMs < r.created_at ∧ e = mkEntry r u) ∧
    List.Sorted entryGE (listOpen db now) := by
  exact ⟨fun e => mem_listOpen, List.sorted_insertionSort entryGE _⟩

/-! ## C5: creation stores a rounded cost and positive page count -/

/-- Rounding to the nearest multiple of 50 moves the cost by at most 25. -/
theorem jsRound_cost_close (c : ℚ) :
    |(((50 * jsRound (c / 50) : Int) : ℚ)) - c| ≤ 25 := by
  unfold jsRound
  have h1 : ((⌊c / 50 + 1 / 2⌋ : Int) : ℚ) ≤ c / 50 + 1 / 2 := Int.floor_le _
  have h2 : c / 50 + 1 / 2 < (⌊c / 50 + 1 / 2⌋ : Int) + 1 := Int.lt_floor_add_one _
  rw [abs_le]
  push_cast
  constructor <;> nlinarith

/-- C5: for a valid creation input, the route inserts (and the open listing
then returns) a row whose `estimated_cost` is the submitted cost rounded to
the nearest multiple of 50 — in particular a multiple of 50 within 25 of the
submitted cost — and whose `num_pages` is the submitted positive integer. -/
theorem create_cost_rounded_pages_positive (db : DB) (clientId : Nat)
    (inp : CreateInput) (newId : Nat) (now : Int) (u : UserRow)
    (hn : inp.course_name ≠ "") (hn2 : inp.course_name.length ≤ 255)
    (hc : inp.course_code ≠ "") (hc2 : inp.course_code.length ≤ 50)
    (ht : inp.assignment_type ≠ "") (ht2 : inp.assignment_type.length ≤ 100)
    (hp : 0 < inp.num_pages) (hd : inp.deadline ≠ 0)
    (hcost : 0 < inp.estimated_cost)
    (hu : u ∈ db.users) (huid : u.id = clientId) :
    ∃ row : RequestRow,
      createRequest db clientId inp newId now =
        ({ db with requests := db.requests ++ [row] }, .created row) ∧
      row.estimated_cost = 50 * jsRound (inp.estimated_cost / 50) ∧
      (50 : Int) ∣ row.estimated_cost ∧
      |((row.estimated_cost : ℚ)) - inp.estimated_cost| ≤ 25 ∧
      row.num_pages = inp.num_pages ∧ 0 < row.num_pages ∧
      mkEntry row u ∈ listOpen { db with requests := db.requests ++ [row] } now := by
  have hguard : ¬(inp.course_name = "" ∨ inp.course_code = "" ∨
      inp.assignment_type = "" ∨ inp.num_pages = 0 ∨ inp.deadline = 0 ∨
      inp.estimated_cost = 0) := by
    push_neg
    exact ⟨hn, hc, ht, (ne_of_gt hp), hd, (ne_of_gt hcost)⟩
  refine ⟨{ id := newId
            client_id := clientId
            course_name := inp.course_name
            course_code := inp.course_code
            assignment_type := inp.assignment_type
            num_pages := inp.num_pages
            deadline := inp.deadline
            estimated_cost := 50 * jsRound (inp.estimated_cost / 50)
            status := .open
            created_at := now }, ?_, rfl,
          ⟨jsRound (inp.estimated_cost / 50), rfl⟩, jsRound_cost_close _,
          rfl, hp, ?_⟩
  · simp only [createRequest, if_neg hguard, if_neg (Nat.not_lt.mpr hn2),
      if_neg (Nat.not_lt.mpr hc2), if_neg (Nat.not_lt.mpr ht2)]
  · refine mem_listOpen.mpr ⟨_, List.mem_append_right _ (List.mem_singleton_self _),
      u, hu, huid, rfl, ?_, rfl⟩
    have hret : (0 : Int) < retentionMs := by norm_num [retentionMs]
    show now - retentionMs < now
    omega

/-- Sample client row used by concrete witnesses. -/
def sampleClient : UserRow :=
  { id := 1, name := "client", writer_status := "inactive", rating := 0,
    total_ratings := 0, profile_picture := "", whatsapp_number := "9990001111" }

/-- Sample store for the creation witness: one client, nothing else. -/
def sampleDBCreate : DB :=
  { users := [sampleClient], requests := [], assignments := [], ratings := [] }

/-- Sample creation body: cost 120 rounds to 100. -/
def sampleCreateInput : CreateInput :=
  { course_name := "Algorithms", course_code := "CS101",
    assignment_type := "Essay", num_pages := 5,
    deadline := 1700000000000, estimated_cost := 120 }

/-- Witness for C5 at a concrete input. -/
theorem create_cost_rounded_pages_positive_witness :
    ∃ row : RequestRow,
      createRequest sampleDBCreate 1 sampleCreateInput 10 1000 =
        ({ sampleDBCreate with
            requests := sampleDBCreate.requests ++ [row] }, .created row) ∧
      row.estimated_cost = 50 * jsRound (sampleCreateInput.estimated_cost / 50) ∧
      (50 : Int) ∣ row.estimated_cost ∧
      |((row.estimated_cost : ℚ)) - sampleCreateInput.estimated_cost| ≤ 25 ∧
      row.num_pages = sampleCreateInput.num_pages ∧ 0 < row.num_pages ∧
      mkEntry row sampleClient ∈
        listOpen { sampleDBCreate with
                    requests := sampleDBCreate.requests ++ [row] } 1000 :=
  create_cost_rounded_pages_positive sampleDBCreate 1 sampleCreateInput 10 1000
    sampleClient (by decide) (by decide) (by decide) (by decide) (by decide)
    (by decide) (by decide) (by decide) (by norm_num [sampleCreateInput])
    (by decide) (by decide)

/-! ## C6: deletion boundary -/

theorem deleteRequest_of_find_none {db : DB} {rid actor : Nat}
    (hfind : db.requests.find? (fun r => r.id == rid) = none) :
    deleteRequest db rid actor = (db, .notFound) := by
  unfold deleteRequest; rw [hfind]

theorem deleteRequest_of_notOwner {db : DB} {rid actor : Nat} {r : RequestRow}
    (hfind : db.requests.find? (fun q => q.id == rid) = some r)
    (hown : r.client_id ≠ actor) :
    deleteRequest db rid actor = (db, .notOwner) := by
  unfold deleteRequest; rw [hfind]; simp [hown]

theorem deleteRequest_of_notOpen {db : DB} {rid actor : Nat} {r : RequestRow}
    (hfind : db.requests.find? (fun q => q.id == rid) = some r)
    (hown : r.client_id = actor) (hopen : r.status ≠ .open) :
    deleteRequest db rid actor = (db, .notOpen) := by
  unfold deleteRequest; rw [hfind]; simp [hown, hopen]

theorem deleteRequest_of_success {db : DB} {rid actor : Nat} {r : RequestRow}
    (hfind : db.requests.find? (fun q => q.id == rid) = some r)
    (hown : r.client_id = actor) (hopen : r.status = .open) :
    deleteRequest db rid actor =
      ({ db with requests := db.requests.filter (fun q => !(q.id == rid)) },
       .success) := by
  unfold deleteRequest; rw [hfind]; simp [hown, hopen]

/-- C6: with unique request ids, the delete route removes the row exactly when
the actor owns it and it is still open; a foreign row yields the ownership
error (distinct from not-found), an already-accepted row yields the conflict
refusal, any non-success outcome leaves the store untouched, and the
`assignments` table is never modified. -/
theorem delete_iff_owner_open (db : DB) (rid actor : Nat)
    (hnd : (db.requests.map (fun r => r.id)).Nodup) :
    ((deleteRequest db rid actor).2 = .success ↔
      ∃ r ∈ db.requests, r.id = rid ∧ r.client_id = actor ∧ r.status = .open) ∧
    ((deleteRequest db rid actor).2 = .success →
      ∀ r ∈ (deleteRequest db rid actor).1.requests, r.id ≠ rid) ∧
    ((deleteRequest db rid actor).2 ≠ .success → (deleteRequest db rid actor).1 = db) ∧
    (∀ r ∈ db.requests, r.id = rid → r.client_id ≠ actor →
      (deleteRequest db rid actor).2 = .notOwner) ∧
    (∀ r ∈ db.requests, r.id = rid → r.client_id = actor → r.status ≠ .open →
      (deleteRequest db rid actor).2 = .notOpen) ∧
    (deleteRequest db rid actor).1.assignments = db.assignments ∧
    (∀ r ∈ db.requests, r.id ≠ rid → r ∈ (deleteRequest db rid actor).1.requests) := by
  have key : ∀ q ∈ db.requests, ∀ r ∈ db.requests, q.id = rid → r.id = rid → q = r := by
    intro q hq r hr hqid hrid
    exact List.inj_on_of_nodup_map hnd hq hr (hqid.trans hrid.symm)
  rcases hfind : db.requests.find? (fun r => r.id == rid) with _ | r
  · have hnone : ∀ r ∈ db.requests, r.id ≠ rid := by
      intro r hr
      simpa using List.find?_eq_none.mp hfind r hr
    rw [deleteRequest_of_find_none hfind]
    refine ⟨?_, ?_, fun _ => rfl, ?_, ?_, rfl, ?_⟩
    · constructor
      · intro h; cases h
      · rintro ⟨q, hq, hqid, -, -⟩; exact absurd hqid (hnone q hq)
    · intro h; cases h
    · intro q hq hqid _; exact absurd hqid (hnone q hq)
    · intro q hq hqid _ _; exact absurd hqid (hnone q hq)
    · intro q hq _; exact hq
  · have hrid : r.id = rid := by simpa using List.find?_some hfind
    have hrmem : r ∈ db.requests := List.mem_of_find?_eq_some hfind
    by_cases hown : r.client_id = actor
    · by_cases hopen : r.status = ReqStatus.open
      · rw [deleteRequest_of_success hfind hown hopen]
        refine ⟨?_, ?_, ?_, ?_, ?_, rfl, ?_⟩
        · exact ⟨fun _ => ⟨r, hrmem, hrid, hown, hopen⟩, fun _ => rfl⟩
        · intro _ q hq
          simpa using (List.mem_filter.mp hq).2
        · intro hns; exact absurd rfl hns
        · intro q hq hqid hqown
          exact absurd ((key q hq r hrmem hqid hrid) ▸ hqown) (by simpa using hown)
        · intro q hq hqid _ hqopen
          exact absurd ((key q hq r hrmem hqid hrid) ▸ hqopen) (by simpa using hopen)
        · intro q hq hqid
          exact List.mem_filter.mpr ⟨hq, by simpa using hqid⟩
      · rw [deleteRequest_of_notOpen hfind hown hopen]
        refine ⟨?_, ?_, fun _ => rfl, ?_, ?_, rfl, ?_⟩
        · constructor
          · intro h; cases h
          · rintro ⟨q, hq, hqid, -, hqopen⟩
            exact absurd ((key q hq r hrmem hqid hrid) ▸ hqopen) hopen
        · intro h; cases h
        · intro q hq hqid hqown
          exact absurd ((key q hq r hrmem hqid hrid) ▸ hqown) (by simpa using hown)
        · intro _ _ _ _ _; rfl
        · intro q hq _; exact hq
    · rw [deleteRequest_of_notOwner hfind hown]
      refine ⟨?_, ?_, fun _ => rfl, ?_, ?_, rfl, ?_⟩
      · constructor
        · intro h; cases h
        · rintro ⟨q, hq, hqid, hqown, -⟩
          exact absurd ((key q hq r hrmem hqid hrid) ▸ hqown) hown
      · intro h; cases h
      · intro _ _ _ _; rfl
      · intro q hq hqid hqown _
        exact absurd ((key q hq r hrmem hqid hrid) ▸ hqown) hown
      · intro q hq _; exact hq

/-- Sample open request row owned by `sampleClient`. -/
def sampleOpenReq : RequestRow :=
  { id := 10, client_id := 1, course_name := "Algorithms", course_code := "CS101",
    assignment_type := "Essay", num_pages := 5, deadline := 1700000000000,
    estimated_cost := 100, status := .open, created_at := 500 }

/-- Sample store for the deletion witness. -/
def sampleDBDelete : DB :=
  { users := [sampleClient], requests := [sampleOpenReq],
    assignments := [], ratings := [] }

/-- Witness for C6 on a concrete store. -/
theorem delete_iff_owner_open_witness :
    (((deleteRequest sampleDBDelete 10 1).2 = .success ↔
      ∃ r ∈ sampleDBDelete.requests, r.id = 10 ∧ r.client_id = 1 ∧ r.status = .open) ∧
    ((deleteRequest sampleDBDelete 10 1).2 = .success →
      ∀ r ∈ (deleteRequest sampleDBDelete 10 1).1.requests, r.id ≠ 10) ∧
    ((deleteRequest sampleDBDelete 10 1).2 ≠ .success →
      (deleteRequest sampleDBDelete 10 1).1 = sampleDBDelete) ∧
    (∀ r ∈ sampleDBDelete.requests, r.id = 10 → r.client_id ≠ 1 →
      (deleteRequest sampleDBDelete 10 1).2 = .notOwner) ∧
    (∀ r ∈ sampleDBDelete.requests, r.id = 10 → r.client_id = 1 → r.status ≠ .open →
      (deleteRequest sampleDBDelete 10 1).2 = .notOpen) ∧
    (deleteRequest sampleDBDelete 10 1).1.assignments = sampleDBDelete.assignments ∧
    (∀ r ∈ sampleDBDelete.requests, r.id ≠ 10 →
      r ∈ (deleteRequest sampleDBDelete 10 1).1.requests)) :=
  delete_iff_owner_open sampleDBDelete 10 1 (by decide)

/-! ## C8: rating upsert -/

/-- Mapping the update statement over the table commutes with filtering by
the statement's own key (the update preserves the key columns). -/
theorem filter_keyMatch_map_upd (rater reqId : Nat) (s : ℚ) (cm : String)
    (l : List RatingRow) :
    ((l.map (fun r => if keyMatch rater reqId r then
        { r with score := s, comment := cm } else r)).filter
          (keyMatch rater reqId)) =
      (l.filter (keyMatch rater reqId)).map
        (fun r => { r with score := s, comment := cm }) := by
  induction l with
  | nil => rfl
  | cons a l ih =>
    by_cases h : keyMatch rater reqId a
    · have h' : keyMatch rater reqId { a with score := s, comment := cm } = true := by
        simpa [keyMatch] using h
      simp [List.filter_cons, h, h', ih]
    · simp [List.filter_cons, h, ih]

/-- Net effect of a validated, non-self rating submission on the whole
store: upsert, then aggregate recompute for the submitted `rated_id`, then
assignment completion. -/
theorem submitRating_main_eq (db : DB) (rater : Nat) (c : SubmitCall)
    (now : Int) (h0 : ¬(c.rated = 0 ∨ c.score = 0 ∨ c.reqId = 0))
    (hself : ¬(c.rated = rater)) :
    (submitRating db rater c now).1 =
      completeAssignments
        (recomputeAggregate
          { db with ratings := upsertRating db.ratings rater c }
          c.rated) c.reqId now := by
  unfold submitRating
  rw [if_neg h0, if_neg hself]

theorem submitRating_ratings (db : DB) (rater : Nat) (c : SubmitCall)
    (now : Int) (h0 : ¬(c.rated = 0 ∨ c.score = 0 ∨ c.reqId = 0))
    (hself : c.rated ≠ rater) :
    (submitRating db rater c now).1.ratings =
      if db.ratings.any (keyMatch rater c.reqId) then
        db.ratings.map (fun r => if keyMatch rater c.reqId r then
          { r with score := c.score, comment := c.comment } else r)
      else db.ratings ++ [⟨rater, c.rated, c.reqId, c.score, c.comment⟩] := by
  rw [submitRating_main_eq db rater c now h0 hself,
    completeAssignments_ratings, recomputeAggregate_ratings]
  unfold upsertRating
  split <;> rfl

/-- C8: submitting a rating twice for the same (rater, request) pair leaves
exactly one row for that pair, carrying the second submission's score and
comment — the second call updates the existing row instead of inserting. -/
theorem rating_upsert_second_wins (db : DB) (rater : Nat) (c1 c2 : SubmitCall)
    (t1 t2 : Int) (hreq : c2.reqId = c1.reqId)
    (h1 : ¬(c1.rated = 0 ∨ c1.score = 0 ∨ c1.reqId = 0)) (hs1 : c1.rated ≠ rater)
    (h2 : ¬(c2.rated = 0 ∨ c2.score = 0 ∨ c2.reqId = 0)) (hs2 : c2.rated ≠ rater)
    (hnone : db.ratings.filter (keyMatch rater c1.reqId) = []) :
    (runSubmissions db [⟨rater, c1, t1⟩, ⟨rater, c2, t2⟩]).ratings.filter
        (keyMatch rater c1.reqId) =
      [⟨rater, c1.rated, c1.reqId, c2.score, c2.comment⟩] := by
  have hall : ∀ a ∈ db.ratings, ¬(keyMatch rater c1.reqId a = true) :=
    List.filter_eq_nil_iff.mp hnone
  have hany : db.ratings.any (keyMatch rater c1.reqId) = false := by
    simpa using hall
  have hrow1 : keyMatch rater c1.reqId
      ⟨rater, c1.rated, c1.reqId, c1.score, c1.comment⟩ = true := by
    simp [keyMatch]
  simp only [runSubmissions]
  rw [submitRating_ratings _ rater c2 t2 h2 hs2,
    submitRating_ratings db rater c1 t1 h1 hs1, hreq, hany]
  simp only [Bool.false_eq_true, if_false, List.any_append, hany,
    List.any_cons, List.any_nil, hrow1, Bool.false_or, Bool.true_or, if_true]
  rw [filter_keyMatch_map_upd]
  rw [List.filter_append, hnone]
  simp [hrow1]

/-- Sample active writer row. -/
def sampleWriter : UserRow :=
  { id := 2, name := "writer", writer_status := "active", rating := 0,
    total_ratings := 0, profile_picture := "", whatsapp_number := "" }

/-- Sample store with a client, an active writer and one open request. -/
def sampleDBRate : DB :=
  { users := [sampleClient, sampleWriter], requests := [sampleOpenReq],
    assignments := [], ratings := [] }

/-- First rating submission of the upsert witness. -/
def rateCall1 : SubmitCall := { rated := 1, reqId := 10, score := 3, comment := "ok" }

/-- Second rating submission of the upsert witness. -/
def rateCall2 : SubmitCall := { rated := 1, reqId := 10, score := 5, comment := "great" }

/-- Witness for C8 on a concrete store. -/
theorem rating_upsert_second_wins_witness :
    (runSubmissions sampleDBRate
        [⟨2, rateCall1, 100⟩, ⟨2, rateCall2, 200⟩]).ratings.filter
        (keyMatch 2 rateCall1.reqId) =
      [⟨2, rateCall1.rated, rateCall1.reqId, rateCall2.score, rateCall2.comment⟩] :=
  rating_upsert_second_wins sampleDBRate 2 rateCall1 rateCall2 100 200 rfl
    (by decide) (by decide) (by decide) (by decide) (by decide)

/-! ## C1: the accept route's two mutations are not atomic

The route runs `INSERT INTO assignments` and `UPDATE assignment_requests`
as two separate `pool.query` calls with no transaction, so the state between
them is durable if the process stops there. -/

/-- C1 (refutation): on a store where the accept checks all pass, stopping
after the accept route's first mutation statement leaves a reachable state
holding the new Assignment row while the request is still `open` — the two
mutations are not all-or-nothing. -/
theorem accept_interrupt_leaves_torn_state :
    acceptChecks sampleDBRate 10 2 = true ∧
    hasAssignmentFor (acceptAfterSteps sampleDBRate 10 2 1000 1) 10 = true ∧
    requestStatus (acceptAfterSteps sampleDBRate 10 2 1000 1) 10 =
      some .open := by decide

/-! ## C2: two concurrent accepts can both succeed

Each handler's open-check is a plain `SELECT` in its own round trip; nothing
stops both handlers from passing the check before either writes. -/

/-- Sample second writer (status busy, hence also eligible). -/
def sampleWriterB : UserRow :=
  { id := 3, name := "writerB", writer_status := "busy", rating := 0,
    total_ratings := 0, profile_picture := "", whatsapp_number := "" }

/-- Sample store with one open request and two eligible writers. -/
def sampleDBRace : DB :=
  { users := [sampleClient, sampleWriter, sampleWriterB],
    requests := [sampleOpenReq], assignments := [], ratings := [] }

/-- C2 (refutation): under the interleaving check-A, check-B, write-A,
write-B on one open request, both accept handlers finish with the success
response and two Assignment rows reference the same request — the loser is
not made to observe `status ≠ open`. -/
theorem accept_race_both_succeed :
    requestStatus sampleDBRace 10 = some .open ∧
    threadSucceeded (raceRun sampleDBRace ⟨2, 0, false⟩ ⟨3, 0, false⟩ 10 1000
        [false, true, false, false, true, true]).2.1 = true ∧
    threadSucceeded (raceRun sampleDBRace ⟨2, 0, false⟩ ⟨3, 0, false⟩ 10 1000
        [false, true, false, false, true, true]).2.2 = true ∧
    ((raceRun sampleDBRace ⟨2, 0, false⟩ ⟨3, 0, false⟩ 10 1000
        [false, true, false, false, true, true]).1.assignments.filter
        (fun a => a.request_id == 10)).length = 2 := by decide


/-! ## C9: the logout proxy silently swallows deletes (second version) -/

/-- C9 (refutation): while a logout is in progress, the second version's
delete route passes all its checks, the proxy drops the `DELETE FROM`
statement, and the route still answers 'Assignment request deleted
successfully' — yet the request row is still present afterwards. -/
theorem delete_during_logout_success_without_removal :
    (deleteRequestV2 sampleDBDelete true 10 1).2 = .success ∧
    (deleteRequestV2 sampleDBDelete true 10 1).1 = sampleDBDelete ∧
    requestStatus ((deleteRequestV2 sampleDBDelete true 10 1).1) 10 =
      some .open := by decide

/-- With the logout flag clear, the proxied route behaves exactly like the
plain delete route. -/
theorem deleteRequestV2_false_eq (db : DB) (rid actor : Nat) :
    deleteRequestV2 db false rid actor = deleteRequest db rid actor := by
  rcases hfind : db.requests.find? (fun r => r.id == rid) with _ | r <;>
    unfold deleteRequestV2 deleteRequest <;> rw [hfind]
  by_cases hown : r.client_id = actor
  · by_cases hopen : r.status = ReqStatus.open <;> simp [hown, hopen]
  · simp [hown]

/-- C9 (amended): outside a logout sequence no delete failure is silently
swallowed — a success response implies the row is gone, and any non-success
response leaves the store untouched. -/
theorem delete_no_silent_swallow_without_logout (db : DB) (rid actor : Nat) :
    ((deleteRequestV2 db false rid actor).2 = .success →
      ∀ r ∈ (deleteRequestV2 db false rid actor).1.requests, r.id ≠ rid) ∧
    ((deleteRequestV2 db false rid actor).2 ≠ .success →
      (deleteRequestV2 db false rid actor).1 = db) := by
  rw [deleteRequestV2_false_eq]
  rcases hfind : db.requests.find? (fun r => r.id == rid) with _ | r
  · rw [deleteRequest_of_find_none hfind]
    exact ⟨fun h => (nomatch h), fun _ => rfl⟩
  · by_cases hown : r.client_id = actor
    · by_cases hopen : r.status = ReqStatus.open
      · rw [deleteRequest_of_success hfind hown hopen]
        refine ⟨fun _ q hq => ?_, fun h => absurd rfl h⟩
        simpa using (List.mem_filter.mp hq).2
      · rw [deleteRequest_of_notOpen hfind hown hopen]
        exact ⟨fun h => (nomatch h), fun _ => rfl⟩
    · rw [deleteRequest_of_notOwner hfind hown]
      exact ⟨fun h => (nomatch h), fun _ => rfl⟩

/-! ## C10: the profile / my-ratings read endpoints as writers -/

/-- Sample user whose cached rating (4.33) was left by the rating route and
differs from the exact mean (13/3) by only 1/300. -/
def staleUser : UserRow :=
  { id := 1, name := "client", writer_status := "inactive",
    rating := 433 / 100, total_ratings := 3, profile_picture := "",
    whatsapp_number := "" }

/-- Sample store for the read-endpoint refutation: three ratings 5, 4, 4 by
raters 2, 3, 4 on requests 101, 102, 103, all of which exist, so every rating
row survives the my-ratings joins exactly once. -/
def sampleDBStale : DB :=
  { users := [staleUser,
      { id := 2, name := "r2", writer_status := "active", rating := 0,
        total_ratings := 0, profile_picture := "", whatsapp_number := "" },
      { id := 3, name := "r3", writer_status := "active", rating := 0,
        total_ratings := 0, profile_picture := "", whatsapp_number := "" },
      { id := 4, name := "r4", writer_status := "active", rating := 0,
        total_ratings := 0, profile_picture := "", whatsapp_number := "" }],
    requests := [
      { id := 101, client_id := 1, course_name := "A", course_code := "A1",
        assignment_type := "Essay", num_pages := 1, deadline := 1,
        estimated_cost := 50, status := .assigned, created_at := 0 },
      { id := 102, client_id := 1, course_name := "B", course_code := "B1",
        assignment_type := "Essay", num_pages := 1, deadline := 1,
        estimated_cost := 50, status := .assigned, created_at := 0 },
      { id := 103, client_id := 1, course_name := "C", course_code := "C1",
        assignment_type := "Essay", num_pages := 1, deadline := 1,
        estimated_cost := 50, status := .assigned, created_at := 0 }],
    assignments := [],
    ratings := [⟨2, 1, 101, 5, "a"⟩, ⟨3, 1, 102, 4, "b"⟩, ⟨4, 1, 103, 4, "c"⟩] }

/-- C10 (refutation): for a user whose three rating rows all survive the
my-ratings joins but whose stored pair is within the 0.01 tolerance,
`GET /api/my-ratings` performs no write at all, and the stored rating stays
different from the freshly recomputed arithmetic mean. -/
theorem myRatings_skips_write_within_tolerance :
    myRatingsGet sampleDBStale 1 = sampleDBStale ∧
    userRating sampleDBStale 1 = some (433 / 100) ∧
    meanFor sampleDBStale 1 = 13 / 3 ∧
    myMeanFor sampleDBStale 1 = 13 / 3 ∧
    (433 / 100 : ℚ) ≠ 13 / 3 := by
  have hmean : meanFor sampleDBStale 1 = 13 / 3 := by
    simp [meanFor, sumFor, ratingsFor, countFor, sampleDBStale, staleUser]
    norm_num
  have hjmean : myMeanFor sampleDBStale 1 = 13 / 3 := by
    simp [myMeanFor, mySumFor, myCountFor, myRatingsRows, sampleDBStale,
      staleUser]
    norm_num
  have hjcount : myCountFor sampleDBStale 1 = 3 := by
    simp [myCountFor, myRatingsRows, sampleDBStale, staleUser]
  have hur : userRating sampleDBStale 1 = some (433 / 100) := by
    simp [userRating, sampleDBStale, staleUser]
  have hut : userTotalRatings sampleDBStale 1 = some 3 := by
    simp [userTotalRatings, sampleDBStale, staleUser]
  have hstale : ¬ myRatingsStale sampleDBStale 1 := by
    rw [myRatingsStale, hjmean, hjcount, hur, hut]
    norm_num [jsAbs]
  refine ⟨?_, hur, hmean, hjmean, by norm_num⟩
  rw [myRatingsGet, if_neg (by rw [hjcount]; exact (by norm_num)), if_neg hstale]

/-- Applying `find?` after an update that touches only matching elements and preserves
the predicate returns the updated found element. -/
theorem find?_map_selective {α : Type} (p : α → Bool) (f : α → α)
    (hf : ∀ a, p a = true → p (f a) = true) (l : List α) :
    (l.map (fun a => if p a then f a else a)).find? p = (l.find? p).map f := by
  induction l with
  | nil => rfl
  | cons a l ih =>
    by_cases h : p a
    · rw [List.map_cons, if_pos h, List.find?_cons_of_pos _ (hf a h),
        List.find?_cons_of_pos _ h]
      rfl
    · rw [List.map_cons, if_neg h, List.find?_cons_of_neg _ h,
        List.find?_cons_of_neg _ h, ih]

/-- C10 (amended): for a user with at least one rating row, `GET
/api/profile` always writes back the freshly computed mean (over all of the
user's rating rows) rounded to one decimal together with the row count, while
`GET /api/my-ratings` recomputes only over the rows surviving its joins to
`users` and `assignment_requests`, writes that pair back (mean at two
decimals) only when the stored pair is stale by its tolerance test, and is a
pure read when nothing is stale or no row survives the joins; both endpoints
leave the user row's other fields, every other user, and every other table
unchanged. -/
theorem read_endpoints_write_back (db : DB) (uid : Nat) (u : UserRow)
    (hfind : db.users.find? (fun v => v.id == uid) = some u)
    (hcount : countFor db uid ≠ 0) :
    ((profileGet db uid).users.find? (fun v => v.id == uid) =
        some { u with rating := round1 (meanFor db uid),
                      total_ratings := countFor db uid } ∧
     (profileGet db uid).requests = db.requests ∧
     (profileGet db uid).assignments = db.assignments ∧
     (profileGet db uid).ratings = db.ratings ∧
     (∀ v ∈ db.users, v.id ≠ uid → v ∈ (profileGet db uid).users)) ∧
    (myCountFor db uid ≠ 0 → myRatingsStale db uid →
      (myRatingsGet db uid).users.find? (fun v => v.id == uid) =
        some { u with rating := round2 (myMeanFor db uid),
                      total_ratings := myCountFor db uid } ∧
      (myRatingsGet db uid).requests = db.requests ∧
      (myRatingsGet db uid).assignments = db.assignments ∧
      (myRatingsGet db uid).ratings = db.ratings ∧
      (∀ v ∈ db.users, v.id ≠ uid → v ∈ (myRatingsGet db uid).users)) ∧
    (myCountFor db uid ≠ 0 → ¬myRatingsStale db uid →
      myRatingsGet db uid = db) ∧
    (myCountFor db uid = 0 → myRatingsGet db uid = db) := by
  have hprof : profileGet db uid =
      { db with users := db.users.map (fun v =>
          if v.id == uid then
            { v with rating := round1 (meanFor db uid),
                     total_ratings := countFor db uid }
          else v) } := by
    unfold profileGet
    rw [hfind]
    simp [hcount]
  have hmrs : myCountFor db uid ≠ 0 → myRatingsStale db uid →
      myRatingsGet db uid =
      { db with users := db.users.map (fun v =>
          if v.id == uid then
            { v with rating := round2 (myMeanFor db uid),
                     total_ratings := myCountFor db uid }
          else v) } := by
    intro hjc hst
    unfold myRatingsGet
    rw [if_neg hjc, if_pos hst]
  have hmrn : myCountFor db uid ≠ 0 → ¬myRatingsStale db uid →
      myRatingsGet db uid = db := by
    intro hjc hst
    unfold myRatingsGet
    rw [if_neg hjc, if_neg hst]
  have hmr0 : myCountFor db uid = 0 → myRatingsGet db uid = db := by
    intro h0
    unfold myRatingsGet
    rw [if_pos h0]
  refine ⟨?_, ?_, hmrn, hmr0⟩
  · rw [hprof]
    refine ⟨?_, rfl, rfl, rfl, ?_⟩
    · have h := find?_map_selective (fun v : UserRow => v.id == uid)
        (fun v : UserRow => { v with rating := round1 (meanFor db uid),
                                     total_ratings := countFor db uid })
        (fun a ha => by simpa using ha) db.users
      rw [hfind] at h
      simpa using h
    · intro v hv hvne
      have hne : (v.id == uid) = false := by simpa using hvne
      exact List.mem_map.mpr ⟨v, hv, by rw [if_neg (by simp [hne])]⟩
  · intro hjc hst
    rw [hmrs hjc hst]
    refine ⟨?_, rfl, rfl, rfl, ?_⟩
    · have h := find?_map_selective (fun v : UserRow => v.id == uid)
        (fun v : UserRow => { v with rating := round2 (myMeanFor db uid),
                                     total_ratings := myCountFor db uid })
        (fun a ha => by simpa using ha) db.users
      rw [hfind] at h
      simpa using h
    · intro v hv hvne
      have hne : (v.id == uid) = false := by simpa using hvne
      exact List.mem_map.mpr ⟨v, hv, by rw [if_neg (by simp [hne])]⟩

/-- Sample store for the read-endpoint witness: one rating by the existing
writer (id 2) on the existing request (id 10), so the row survives the
my-ratings joins. -/
def sampleDBFresh : DB :=
  { users := [sampleClient, sampleWriter], requests := [sampleOpenReq],
    assignments := [], ratings := [⟨2, 1, 10, 5, "a"⟩] }

/-- Witness for the amended C10 on a concrete store. -/
theorem read_endpoints_write_back_witness :
    ((profileGet sampleDBFresh 1).users.find? (fun v => v.id == 1) =
        some { sampleClient with
                rating := round1 (meanFor sampleDBFresh 1),
                total_ratings := countFor sampleDBFresh 1 } ∧
     (profileGet sampleDBFresh 1).requests = sampleDBFresh.requests ∧
     (profileGet sampleDBFresh 1).assignments = sampleDBFresh.assignments ∧
     (profileGet sampleDBFresh 1).ratings = sampleDBFresh.ratings ∧
     (∀ v ∈ sampleDBFresh.users, v.id ≠ 1 →
        v ∈ (profileGet sampleDBFresh 1).users)) ∧
    (myCountFor sampleDBFresh 1 ≠ 0 → myRatingsStale sampleDBFresh 1 →
      (myRatingsGet sampleDBFresh 1).users.find? (fun v => v.id == 1) =
        some { sampleClient with
                rating := round2 (myMeanFor sampleDBFresh 1),
                total_ratings := myCountFor sampleDBFresh 1 } ∧
      (myRatingsGet sampleDBFresh 1).requests = sampleDBFresh.requests ∧
      (myRatingsGet sampleDBFresh 1).assignments = sampleDBFresh.assignments ∧
      (myRatingsGet sampleDBFresh 1).ratings = sampleDBFresh.ratings ∧
      (∀ v ∈ sampleDBFresh.users, v.id ≠ 1 →
        v ∈ (myRatingsGet sampleDBFresh 1).users)) ∧
    (myCountFor sampleDBFresh 1 ≠ 0 → ¬myRatingsStale sampleDBFresh 1 →
      myRatingsGet sampleDBFresh 1 = sampleDBFresh) ∧
    (myCountFor sampleDBFresh 1 = 0 → myRatingsGet sampleDBFresh 1 = sampleDBFresh) :=
  read_endpoints_write_back sampleDBFresh 1 sampleClient rfl (by decide)

/-! ## C3: stored aggregate vs. exact arithmetic mean -/

/-- C3 (refutation): after three submissions scoring 5, 4, 4, the rating
route's `AVG(rating)::numeric(3,2)` write leaves the rated user's cached
rating at 4.33, which is not the arithmetic mean 13/3 of the stored rows. -/
theorem rating_cache_not_exact_mean :
    userRating (runSubmissions sampleDBCreate
        [⟨2, ⟨1, 101, 5, "a"⟩, 0⟩, ⟨3, ⟨1, 102, 4, "b"⟩, 0⟩,
         ⟨4, ⟨1, 103, 4, "c"⟩, 0⟩]) 1 = some (433 / 100) ∧
    meanFor (runSubmissions sampleDBCreate
        [⟨2, ⟨1, 101, 5, "a"⟩, 0⟩, ⟨3, ⟨1, 102, 4, "b"⟩, 0⟩,
         ⟨4, ⟨1, 103, 4, "c"⟩, 0⟩]) 1 = 13 / 3 ∧
    (433 / 100 : ℚ) ≠ 13 / 3 := by
  have h1 : (submitRating sampleDBCreate 2 ⟨1, 101, 5, "a"⟩ 0).1 =
      { users := [{ sampleClient with rating := 5, total_ratings := 1 }],
        requests := [], assignments := [],
        ratings := [⟨2, 1, 101, 5, "a"⟩] } := by
    rw [submitRating_main_eq _ _ _ _ (by simp) (by simp)]
    norm_num [upsertRating, keyMatch, recomputeAggregate, completeAssignments,
      countFor, ratingsFor, meanFor, sumFor, round2, sampleDBCreate, sampleClient]
  have h2 : (submitRating
      { users := [{ sampleClient with rating := 5, total_ratings := 1 }],
        requests := [], assignments := [],
        ratings := [⟨2, 1, 101, 5, "a"⟩] } 3 ⟨1, 102, 4, "b"⟩ 0).1 =
      { users := [{ sampleClient with rating := 9 / 2, total_ratings := 2 }],
        requests := [], assignments := [],
        ratings := [⟨2, 1, 101, 5, "a"⟩, ⟨3, 1, 102, 4, "b"⟩] } := by
    rw [submitRating_main_eq _ _ _ _ (by simp) (by simp)]
    norm_num [upsertRating, keyMatch, recomputeAggregate, completeAssignments,
      countFor, ratingsFor, meanFor, sumFor, round2, sampleClient]
  have h3 : (submitRating
      { users := [{ sampleClient with rating := 9 / 2, total_ratings := 2 }],
        requests := [], assignments := [],
        ratings := [⟨2, 1, 101, 5, "a"⟩, ⟨3, 1, 102, 4, "b"⟩] }
        4 ⟨1, 103, 4, "c"⟩ 0).1 =
      { users := [{ sampleClient with rating := 433 / 100, total_ratings := 3 }],
        requests := [], assignments := [],
        ratings := [⟨2, 1, 101, 5, "a"⟩, ⟨3, 1, 102, 4, "b"⟩,
          ⟨4, 1, 103, 4, "c"⟩] } := by
    rw [submitRating_main_eq _ _ _ _ (by simp) (by simp)]
    norm_num [upsertRating, keyMatch, recomputeAggregate, completeAssignments,
      countFor, ratingsFor, meanFor, sumFor, round2, sampleClient]
  have hrun : runSubmissions sampleDBCreate
      [⟨2, ⟨1, 101, 5, "a"⟩, 0⟩, ⟨3, ⟨1, 102, 4, "b"⟩, 0⟩,
       ⟨4, ⟨1, 103, 4, "c"⟩, 0⟩] =
      { users := [{ sampleClient with rating := 433 / 100, total_ratings := 3 }],
        requests := [], assignments := [],
        ratings := [⟨2, 1, 101, 5, "a"⟩, ⟨3, 1, 102, 4, "b"⟩,
          ⟨4, 1, 103, 4, "c"⟩] } := by
    simp only [runSubmissions]
    rw [h1, h2, h3]
  rw [hrun]
  refine ⟨?_, ?_, by norm_num⟩
  · simp [userRating, sampleClient]
  · simp [meanFor, sumFor, countFor, ratingsFor, sampleClient]
    norm_num

/-- A submission is rated-consistent with the store: every existing row under
its (rater, request) key already carries the submitted `rated_id`.  The
update path leaves `rated_id` untouched while the aggregate recompute targets
the submitted one, and the source never cross-checks the two. -/
def consistentCall (db : DB) (rater : Nat) (c : SubmitCall) : Bool :=
  (db.ratings.filter (keyMatch rater c.reqId)).all (fun r => r.rated_id == c.rated)

/-- Every submission of the sequence is rated-consistent when it executes. -/
def consistentRun (db : DB) : List SubmitEvent → Bool
  | [] => true
  | e :: es => consistentCall db e.rater e.call &&
      consistentRun (submitRating db e.rater e.call e.time).1 es

/-- The cached aggregate columns agree with the `ratings` table: a user with
rating rows caches the two-decimal rounded mean and the exact count, a user
without rows caches count 0. -/
def aggregatesAccurate (db : DB) : Prop :=
  ∀ u ∈ db.users,
    (countFor db u.id ≠ 0 →
      u.rating = round2 (meanFor db u.id) ∧ u.total_ratings = countFor db u.id) ∧
    (countFor db u.id = 0 → u.total_ratings = 0)

instance (db : DB) : Decidable (aggregatesAccurate db) := by
  unfold aggregatesAccurate
  exact List.decidableBAll _ db.users

/-- The update statement does not change any other user's set of rating rows
when the touched rows all belong to `rated`. -/
theorem filter_rated_map_upd (rater reqId rated uid : Nat) (s : ℚ) (cm : String)
    (l : List RatingRow)
    (hcons : ∀ r ∈ l, keyMatch rater reqId r = true → r.rated_id = rated)
    (huid : uid ≠ rated) :
    (l.map (fun r => if keyMatch rater reqId r then
        { r with score := s, comment := cm } else r)).filter
      (fun r => r.rated_id == uid) = l.filter (fun r => r.rated_id == uid) := by
  induction l with
  | nil => rfl
  | cons a l ih =>
    have ihl := ih (fun r hr h => hcons r (List.mem_cons_of_mem _ hr) h)
    by_cases h : keyMatch rater reqId a
    · have hra : a.rated_id = rated := hcons a (List.mem_cons_self _ _) h
      have hne : ¬(rated = uid) := fun hh => huid hh.symm
      simp [List.filter_cons, h, hra, hne, ihl]
    · simp [List.filter_cons, h, ihl]

/-- The upsert step leaves every other user's rating rows unchanged. -/
theorem upsert_ratingsFor_other (ratings : List RatingRow) (rater : Nat)
    (c : SubmitCall)
    (hcons : ∀ r ∈ ratings, keyMatch rater c.reqId r = true → r.rated_id = c.rated)
    (uid : Nat) (huid : uid ≠ c.rated) :
    (upsertRating ratings rater c).filter (fun r => r.rated_id == uid) =
      ratings.filter (fun r => r.rated_id == uid) := by
  unfold upsertRating
  split
  · exact filter_rated_map_upd rater c.reqId c.rated uid c.score c.comment
      ratings hcons huid
  · rw [List.filter_append]
    have hone : ([⟨rater, c.rated, c.reqId, c.score, c.comment⟩] :
        List RatingRow).filter (fun r => r.rated_id == uid) = [] := by
      have hne : ¬(c.rated = uid) := fun hh => huid hh.symm
      simp [hne]
    rw [hone, List.append_nil]

/-- After the upsert step the submitted `rated_id` has at least one row. -/
theorem upsert_ratingsFor_rated_ne_nil (ratings : List RatingRow) (rater : Nat)
    (c : SubmitCall)
    (hcons : ∀ r ∈ ratings, keyMatch rater c.reqId r = true → r.rated_id = c.rated) :
    (upsertRating ratings rater c).filter (fun r => r.rated_id == c.rated) ≠ [] := by
  unfold upsertRating
  split
  · rename_i hany
    obtain ⟨r, hr, hkey⟩ := List.any_eq_true.mp hany
    intro hnil
    have hall := List.filter_eq_nil_iff.mp hnil
    have hmem : (if keyMatch rater c.reqId r then
        { r with score := c.score, comment := c.comment } else r) ∈
        ratings.map (fun r => if keyMatch rater c.reqId r then
          { r with score := c.score, comment := c.comment } else r) :=
      List.mem_map_of_mem _ hr
    have hra : r.rated_id = c.rated := hcons r hr hkey
    refine hall _ hmem ?_
    rw [if_pos hkey]
    simpa using hra
  · intro hnil
    rw [List.filter_append] at hnil
    have := List.append_eq_nil.mp hnil
    simp at this

/-- The aggregate reads only depend on the `ratings` table. -/
theorem countFor_congr {db db' : DB} (hr : db'.ratings = db.ratings)
    (uid : Nat) : countFor db' uid = countFor db uid := by
  unfold countFor ratingsFor
  rw [hr]

theorem meanFor_congr {db db' : DB} (hr : db'.ratings = db.ratings)
    (uid : Nat) : meanFor db' uid = meanFor db uid := by
  unfold meanFor sumFor countFor ratingsFor
  rw [hr]

/-- Aggregate accuracy only depends on the `users` and `ratings` tables. -/
theorem aggregatesAccurate_of_eq (db db' : DB) (hu : db'.users = db.users)
    (hr : db'.ratings = db.ratings) (h : aggregatesAccurate db) :
    aggregatesAccurate db' := by
  intro u hu'
  rw [hu] at hu'
  obtain ⟨h1, h2⟩ := h u hu'
  rw [countFor_congr hr, meanFor_congr hr]
  exact ⟨h1, h2⟩

/-- The aggregate recompute makes the cache accurate for the recomputed user
and preserves accuracy for everyone else. -/
theorem recomputeAggregate_accurate (db1 db0 : DB) (rated : Nat)
    (husers : db1.users = db0.users)
    (hframe : ∀ uid, uid ≠ rated → ratingsFor db1 uid = ratingsFor db0 uid)
    (hacc : aggregatesAccurate db0)
    (hpos : countFor db1 rated ≠ 0) :
    aggregatesAccurate (recomputeAggregate db1 rated) := by
  unfold recomputeAggregate
  rw [if_neg hpos]
  have hr2 : ({ db1 with users := db1.users.map (fun u =>
      if u.id == rated then
        { u with rating := round2 (meanFor db1 rated),
                 total_ratings := countFor db1 rated }
      else u) } : DB).ratings = db1.ratings := rfl
  intro u' hu'
  rw [countFor_congr hr2, meanFor_congr hr2]
  obtain ⟨v, hv, rfl⟩ := List.mem_map.mp hu'
  by_cases hvid : (v.id == rated) = true
  · have hv' : v.id = rated := by simpa using hvid
    rw [if_pos hvid]
    dsimp only
    rw [hv']
    exact ⟨fun _ => ⟨rfl, rfl⟩, fun hz => absurd hz hpos⟩
  · have hv'' : v.id ≠ rated := by simpa using hvid
    have hflt := hframe v.id hv''
    have hcnt : countFor db1 v.id = countFor db0 v.id := by
      unfold countFor
      rw [hflt]
    have hmn : meanFor db1 v.id = meanFor db0 v.id := by
      unfold meanFor sumFor countFor
      rw [hflt]
    rw [if_neg hvid, hcnt, hmn]
    exact hacc v (husers ▸ hv)

/-- One validated, rated-consistent rating submission keeps the cached
aggregates accurate. -/
theorem submitRating_preserves_accurate (db : DB) (rater : Nat)
    (c : SubmitCall) (now : Int) (hacc : aggregatesAccurate db)
    (hcons : consistentCall db rater c = true) :
    aggregatesAccurate (submitRating db rater c now).1 := by
  by_cases h0 : c.rated = 0 ∨ c.score = 0 ∨ c.reqId = 0
  · unfold submitRating; rw [if_pos h0]; exact hacc
  by_cases hself : c.rated = rater
  · unfold submitRating; rw [if_neg h0, if_pos hself]; exact hacc
  have hconsAll : ∀ r ∈ db.ratings, keyMatch rater c.reqId r = true →
      r.rated_id = c.rated := by
    intro r hr hk
    have := List.all_eq_true.mp hcons r (List.mem_filter.mpr ⟨hr, hk⟩)
    simpa using this
  rw [submitRating_main_eq db rater c now h0 hself]
  have hpos : countFor { db with ratings := upsertRating db.ratings rater c }
      c.rated ≠ 0 := fun h =>
    upsert_ratingsFor_rated_ne_nil db.ratings rater c hconsAll
      (List.length_eq_zero.mp h)
  apply aggregatesAccurate_of_eq _ _
    (completeAssignments_users _ c.reqId now)
    (completeAssignments_ratings _ c.reqId now)
  exact recomputeAggregate_accurate
    { db with ratings := upsertRating db.ratings rater c } db c.rated rfl
    (fun uid huid => upsert_ratingsFor_other db.ratings rater c hconsAll uid huid)
    hacc hpos

/-- Running a rated-consistent sequence of submissions keeps the cached
aggregates accurate. -/
theorem runSubmissions_preserves_accurate (es : List SubmitEvent) (db : DB)
    (hacc : aggregatesAccurate db) (hcons : consistentRun db es = true) :
    aggregatesAccurate (runSubmissions db es) := by
  induction es generalizing db with
  | nil => exact hacc
  | cons e es ih =>
    rw [runSubmissions]
    rw [consistentRun, Bool.and_eq_true] at hcons
    exact ih _ (submitRating_preserves_accurate db e.rater e.call e.time
      hacc hcons.1) hcons.2

/-- C3 (amended): starting from a store whose aggregate caches are accurate,
after any sequence of SubmitRating calls in which no call reuses an existing
(rater, request) key with a different rated_id, every user with at least one
Rating row stores the arithmetic mean of those rows rounded to two decimals
(the `AVG(rating)::numeric(3,2)` write) as `rating` and their exact count as
`total_ratings`. -/
theorem rating_aggregate_cached_rounded (db : DB) (es : List SubmitEvent)
    (hacc : aggregatesAccurate db) (hcons : consistentRun db es = true) :
    ∀ u ∈ (runSubmissions db es).users,
      countFor (runSubmissions db es) u.id ≠ 0 →
        u.rating = round2 (meanFor (runSubmissions db es) u.id) ∧
        u.total_ratings = countFor (runSubmissions db es) u.id := by
  intro u hu hnz
  exact ((runSubmissions_preserves_accurate es db hacc hcons) u hu).1 hnz

/-- Witness for the amended C3 on a concrete store and call sequence. -/
theorem rating_aggregate_cached_rounded_witness :
    aggregatesAccurate sampleDBCreate ∧
    consistentRun sampleDBCreate [⟨2, ⟨1, 101, 5, "x"⟩, 0⟩] = true ∧
    (∀ u ∈ (runSubmissions sampleDBCreate [⟨2, ⟨1, 101, 5, "x"⟩, 0⟩]).users,
      countFor (runSubmissions sampleDBCreate
          [⟨2, ⟨1, 101, 5, "x"⟩, 0⟩]) u.id ≠ 0 →
        u.rating = round2 (meanFor (runSubmissions sampleDBCreate
          [⟨2, ⟨1, 101, 5, "x"⟩, 0⟩]) u.id) ∧
        u.total_ratings = countFor (runSubmissions sampleDBCreate
          [⟨2, ⟨1, 101, 5, "x"⟩, 0⟩]) u.id) :=
  ⟨by decide, by decide,
    rating_aggregate_cached_rounded sampleDBCreate _ (by decide) (by decide)⟩
